import Mathlib

/-!
Shallow embedding of the `numru` array core: the `Ix`/`Shape` dimension
model (`src/ix.rs`, `src/shape.rs`), the `Array` type with its validated
constructor and fills (`src/array.rs`), the reduction engine
(`max_compute` / `min_compute` / `mean_compute` in `src/array.rs`), and
the builder front-end (`src/operations.rs`).

Modelling conventions:
* `Vec<T>` is `List α`; `usize` is `Nat`; machine indexing `data[i]`
  (always in-bounds under the size invariant) is `List.getD i default`;
  the slice `data[s..e]` is `sliceRange data s e`.
* `Result<V, ArrayError>` is `Except ArrayError V`; `collect` over an
  iterator of results is `collectResults` (first error wins).
* `iter().max_by(|a,b| a.partial_cmp(b).unwrap())` over a totally
  ordered element type is `List.max?` (the fold of `max`), and its
  `None` case (empty iterator) maps to the `ok_or(EmptyArray)` branch.
* `f64` (used only by `mean_compute` as an exact-sum accumulator in the
  claims under study) is modelled by `ℚ`, with the `Into<f64>`
  conversion an explicit function `f : α → ℚ`.
* A Rust panic (`unwrap()` in the builder front-end) is modelled by
  `Option.none` via `Except.toOption`; the `unreachable!()` arm of the
  rank-3 axis dispatch is modelled by a marker error value (it is dead
  code: the axis bound was already checked).
-/

namespace Numru

/-- Model of `ArrayError` from `src/errors.rs`. -/
inductive ArrayError where
  | dimensionMismatch (expected actual : Nat)
  | indexOutOfBounds (msg : String)
  | emptyArray
  | dataTypeMismatch (msg : String)
  | invalidAxis (msg : String)
  | unimplementedDimension (msg : String)
deriving DecidableEq, Repr

/-- Model of `Ix<N>` from `src/ix.rs`: the fixed-size dimension array `[usize; N]`,
modelled as a list of extents (so `ndim = dims.length` plays the role of `N`). -/
structure Ix where
  dims : List Nat
deriving DecidableEq, Repr

/-- Model of `Ix::ndim`: the number of dimensions `N`. -/
def Ix.ndim (ix : Ix) : Nat :=
  ix.dims.length

/-- Model of `Ix::size`: `self.dims.iter().product()`. -/
def Ix.size (ix : Ix) : Nat :=
  ix.dims.prod

/-- Model of `Shape<D>` from `src/shape.rs`, wrapping one dimension value. -/
structure Shape where
  dims : Ix
deriving DecidableEq, Repr

/-- Model of `Shape::raw_dim`. -/
def Shape.rawDim (s : Shape) : Ix :=
  s.dims

/-- Model of `Shape::size`: delegates to the dimension. -/
def Shape.size (s : Shape) : Nat :=
  s.dims.size

/-- Model of `Array<T, D>` from `src/array.rs`: a flat buffer plus a shape. -/
structure Array (α : Type) where
  data : List α
  shape : Shape

/-- Model of `Array::new` from `src/array.rs`: the validated constructor. -/
def Array.new {α : Type} (data : List α) (shape : Shape) : Except ArrayError (Array α) :=
  let expectedSize := shape.size
  if data.length ≠ expectedSize then
    Except.error (ArrayError.dimensionMismatch expectedSize data.length)
  else
    Except.ok ⟨data, shape⟩

/-- Model of `Array::zeros`: replaces every element with zero, keeping the shape. -/
def Array.zeros {α : Type} [Zero α] (a : Array α) : Array α :=
  ⟨a.data.map fun _ => (0 : α), a.shape⟩

/-- Model of `Array::ones`: replaces every element with one, keeping the shape. -/
def Array.ones {α : Type} [One α] (a : Array α) : Array α :=
  ⟨a.data.map fun _ => (1 : α), a.shape⟩

/-- The slice `data[s..e]` of a Rust `Vec`. -/
def sliceRange {α : Type} (l : List α) (s e : Nat) : List α :=
  (l.drop s).take (e - s)

/-- Model of `opt.ok_or(ArrayError::EmptyArray)`. -/
def okOrEmpty {α : Type} : Option α → Except ArrayError α
  | some v => Except.ok v
  | none => Except.error ArrayError.emptyArray

/-- Model of `collect::<Result<Vec<_>, _>>()`: gathers the `ok` values, stopping at
the first error. -/
def collectResults {ε α : Type} : List (Except ε α) → Except ε (List α)
  | [] => Except.ok []
  | x :: xs =>
    match x with
    | Except.error e => Except.error e
    | Except.ok a =>
      match collectResults xs with
      | Except.error e => Except.error e
      | Except.ok rest => Except.ok (a :: rest)

/-- The `InvalidAxis` message format string of `src/array.rs`. -/
def invalidAxisMsg (ax ndim : Nat) : String :=
  s!"Axis {ax} is out of bounds for array with {ndim} dimensions"

/-- The `UnimplementedDimension` message format string of `src/array.rs`. -/
def unimplementedMsg (ndim : Nat) (op : String) : String :=
  s!"Dimension {ndim} for {op} computation not implemented"

/-- The shared `match ndim` block of `Array::max_compute` and
`Array::min_compute` (`src/array.rs`), reached after the emptiness and
axis checks; the two Rust functions are textually identical except for
the aggregator (`max_by` vs `min_by`, here `agg`) and the operation
name in the `UnimplementedDimension` message (here `op`).  Matching on
the extent list replaces matching on `ndim` (the list has exactly
`ndim` entries, and the arms read `dims()[0]`, `dims()[1]`,
`dims()[2]`).  The `some _` arm of the rank-3 dispatch models
`unreachable!()`. -/
def reduceAxisBody {α : Type} [Inhabited α] (op : String) (agg : List α → Option α)
    (data : List α) (dims : List Nat) (axis : Option Nat) : Except ArrayError (List α) :=
  match dims with
  | [_n] => (okOrEmpty (agg data)).map fun m => [m]
  | [rows, cols] =>
    match axis with
    | some 0 =>
      collectResults ((List.range cols).map fun col =>
        okOrEmpty (agg ((List.range rows).map fun row => data.getD (row * cols + col) default)))
    | some _ =>
      collectResults ((List.range rows).map fun row =>
        okOrEmpty (agg (sliceRange data (row * cols) ((row + 1) * cols))))
    | none => (okOrEmpty (agg data)).map fun m => [m]
  | [depth, rows, cols] =>
    match axis with
    | some 0 =>
      collectResults ((List.range (rows * cols)).map fun i =>
        okOrEmpty (agg ((List.range depth).map fun d => data.getD (d * rows * cols + i) default)))
    | some 1 =>
      collectResults ((List.range depth).flatMap fun d =>
        (List.range cols).map fun c =>
          okOrEmpty
            (agg ((List.range rows).map fun r =>
              data.getD (d * rows * cols + r * cols + c) default)))
    | some 2 =>
      collectResults ((List.range depth).flatMap fun d =>
        (List.range rows).map fun r =>
          okOrEmpty
            (agg (sliceRange data (d * rows * cols + r * cols)
              (d * rows * cols + r * cols + cols))))
    | some _ => Except.error (ArrayError.unimplementedDimension "unreachable")
    | none => (okOrEmpty (agg data)).map fun m => [m]
  | _ => Except.error (ArrayError.unimplementedDimension (unimplementedMsg dims.length op))

/-- The `match ndim` block of `Array::max_compute`:
`iter().max_by(|a, b| a.partial_cmp(b).unwrap())` is `List.max?`. -/
def maxAxisBody {α : Type} [LinearOrder α] [Inhabited α]
    (data : List α) (dims : List Nat) (axis : Option Nat) : Except ArrayError (List α) :=
  reduceAxisBody "max" (fun l => l.max?) data dims axis

/-- Model of `Array::max_compute` from `src/array.rs`. -/
def Array.maxCompute {α : Type} [LinearOrder α] [Inhabited α]
    (a : Array α) (axis : Option Nat) : Except ArrayError (List α) :=
  if a.data.isEmpty then Except.error ArrayError.emptyArray
  else
    match axis with
    | some ax =>
      if a.shape.rawDim.ndim ≤ ax then
        Except.error (ArrayError.invalidAxis (invalidAxisMsg ax a.shape.rawDim.ndim))
      else
        maxAxisBody a.data a.shape.rawDim.dims axis
    | none => maxAxisBody a.data a.shape.rawDim.dims axis

/-- The `match ndim` block of `Array::min_compute` (`src/array.rs`):
identical to the max block with `min_by` in place of `max_by`. -/
def minAxisBody {α : Type} [LinearOrder α] [Inhabited α]
    (data : List α) (dims : List Nat) (axis : Option Nat) : Except ArrayError (List α) :=
  reduceAxisBody "min" (fun l => l.min?) data dims axis

/-- Model of `Array::min_compute` from `src/array.rs`. -/
def Array.minCompute {α : Type} [LinearOrder α] [Inhabited α]
    (a : Array α) (axis : Option Nat) : Except ArrayError (List α) :=
  if a.data.isEmpty then Except.error ArrayError.emptyArray
  else
    match axis with
    | some ax =>
      if a.shape.rawDim.ndim ≤ ax then
        Except.error (ArrayError.invalidAxis (invalidAxisMsg ax a.shape.rawDim.ndim))
      else
        minAxisBody a.data a.shape.rawDim.dims axis
    | none => minAxisBody a.data a.shape.rawDim.dims axis

/-- The `match ndim` block of `Array::mean_compute` (`src/array.rs`);
`f` models the `Into<f64>` conversion of the element type. -/
def meanAxisBody {α : Type} [Inhabited α] (f : α → ℚ)
    (data : List α) (dims : List Nat) (axis : Option Nat) : Except ArrayError (List ℚ) :=
  match dims with
  | [_n] => Except.ok [(data.map f).sum / (data.length : ℚ)]
  | [rows, cols] =>
    match axis with
    | some 0 =>
      collectResults ((List.range cols).map fun col =>
        Except.ok
          (((List.range rows).map fun row => f (data.getD (row * cols + col) default)).sum /
            (rows : ℚ)))
    | some _ =>
      collectResults ((List.range rows).map fun row =>
        Except.ok
          (((sliceRange data (row * cols) ((row + 1) * cols)).map f).sum / (cols : ℚ)))
    | none => Except.ok [(data.map f).sum / ((rows * cols : Nat) : ℚ)]
  | [depth, rows, cols] =>
    match axis with
    | some 0 =>
      collectResults ((List.range (rows * cols)).map fun i =>
        Except.ok
          (((List.range depth).map fun d => f (data.getD (d * rows * cols + i) default)).sum /
            (depth : ℚ)))
    | some 1 =>
      collectResults ((List.range depth).flatMap fun d =>
        (List.range cols).map fun c =>
          Except.ok
            (((List.range rows).map fun r =>
                f (data.getD (d * rows * cols + r * cols + c) default)).sum /
              (rows : ℚ)))
    | some 2 =>
      collectResults ((List.range depth).flatMap fun d =>
        (List.range rows).map fun r =>
          Except.ok
            (((sliceRange data (d * rows * cols + r * cols)
                  (d * rows * cols + r * cols + cols)).map f).sum /
              (cols : ℚ)))
    | some _ => Except.error (ArrayError.unimplementedDimension "unreachable")
    | none => Except.ok [(data.map f).sum / ((depth * rows * cols : Nat) : ℚ)]
  | _ => Except.error (ArrayError.unimplementedDimension (unimplementedMsg dims.length "mean"))

/-- Model of `Array::mean_compute` from `src/array.rs`. -/
def Array.meanCompute {α : Type} [Inhabited α] (f : α → ℚ)
    (a : Array α) (axis : Option Nat) : Except ArrayError (List ℚ) :=
  if a.data.isEmpty then Except.error ArrayError.emptyArray
  else
    match axis with
    | some ax =>
      if a.shape.rawDim.ndim ≤ ax then
        Except.error (ArrayError.invalidAxis (invalidAxisMsg ax a.shape.rawDim.ndim))
      else
        meanAxisBody f a.data a.shape.rawDim.dims axis
    | none => meanAxisBody f a.data a.shape.rawDim.dims axis

/-- Model of `MaxBuilder` from `src/operations.rs`. -/
structure MaxBuilder (α : Type) where
  array : Array α
  axis : Option Nat

/-- Model of `Array::max`: starts a max computation (axis initially `None`). -/
def Array.max {α : Type} (a : Array α) : MaxBuilder α :=
  ⟨a, none⟩

/-- Model of `MaxBuilder::axis`. -/
def MaxBuilder.axis' {α : Type} (b : MaxBuilder α) (ax : Nat) : MaxBuilder α :=
  ⟨b.array, some ax⟩

/-- Model of `MaxBuilder::compute`: `self.array.max_compute(self.axis).unwrap()`.
The `unwrap()` panic is modelled by `none`. -/
def MaxBuilder.compute {α : Type} [LinearOrder α] [Inhabited α]
    (b : MaxBuilder α) : Option (List α) :=
  (b.array.maxCompute b.axis).toOption

/-- Model of `MinBuilder` from `src/operations.rs`. -/
structure MinBuilder (α : Type) where
  array : Array α
  axis : Option Nat

/-- Model of `Array::min`: starts a min computation (axis initially `None`). -/
def Array.min {α : Type} (a : Array α) : MinBuilder α :=
  ⟨a, none⟩

/-- Model of `MinBuilder::axis`. -/
def MinBuilder.axis' {α : Type} (b : MinBuilder α) (ax : Nat) : MinBuilder α :=
  ⟨b.array, some ax⟩

/-- Model of `MinBuilder::compute`: `self.array.min_compute(self.axis).unwrap()`. -/
def MinBuilder.compute {α : Type} [LinearOrder α] [Inhabited α]
    (b : MinBuilder α) : Option (List α) :=
  (b.array.minCompute b.axis).toOption

/-- Model of `MeanBuilder` from `src/operations.rs`. -/
structure MeanBuilder (α : Type) where
  array : Array α
  axis : Option Nat

/-- Model of `Array::mean`: starts a mean computation (axis initially `None`). -/
def Array.mean {α : Type} (a : Array α) : MeanBuilder α :=
  ⟨a, none⟩

/-- Model of `MeanBuilder::axis`. -/
def MeanBuilder.axis' {α : Type} (b : MeanBuilder α) (ax : Nat) : MeanBuilder α :=
  ⟨b.array, some ax⟩

/-- Model of `MeanBuilder::compute`: `self.array.mean_compute(self.axis).unwrap()`. -/
def MeanBuilder.compute {α : Type} [Inhabited α] (f : α → ℚ)
    (b : MeanBuilder α) : Option (List ℚ) :=
  (b.array.meanCompute f b.axis).toOption

/-! ### Specification-side definitions

The following definitions are transcribed from the specification's §4.3
reduction table and §3 layout rule, *not* from the source; they exist
only to be compared with the code-derived definitions above.  The §3
layout rule places element `(d, r, c)` of a rank-3 shape
`[depth, rows, cols]` at linear index `d*rows*cols + r*cols + c`, with
rank 2 and rank 1 the degenerate cases `r*cols + c` and `c`. -/

/-- The groups of the §4.3 reduction table, in the table's order.
`axis = none` is the single group of all elements; rank 1 `axis 0` is
"same as None"; rank 2 `axis 0` is one group per column (all rows, that
column fixed), `axis 1` one group per row; rank 3 `axis 0` is one group
per `(row, col)` pair ordered row-major aggregating over depth,
`axis 1` one group per `(depth, col)` pair ordered depth-major then col
aggregating over rows, `axis 2` one group per `(depth, row)` pair
ordered depth-major then row aggregating over cols. -/
def tableGroups {α : Type} [Inhabited α]
    (data : List α) (dims : List Nat) (axis : Option Nat) : List (List α) :=
  match axis with
  | none => [data]
  | some ax =>
    match dims with
    | [_n] => [data]
    | [rows, cols] =>
      if ax = 0 then
        (List.range cols).map fun c =>
          (List.range rows).map fun r => data.getD (r * cols + c) default
      else
        (List.range rows).map fun r =>
          (List.range cols).map fun c => data.getD (r * cols + c) default
    | [depth, rows, cols] =>
      if ax = 0 then
        (List.range rows).flatMap fun r =>
          (List.range cols).map fun c =>
            (List.range depth).map fun d => data.getD (d * rows * cols + r * cols + c) default
      else if ax = 1 then
        (List.range depth).flatMap fun d =>
          (List.range cols).map fun c =>
            (List.range rows).map fun r => data.getD (d * rows * cols + r * cols + c) default
      else
        (List.range depth).flatMap fun d =>
          (List.range rows).map fun r =>
            (List.range cols).map fun c => data.getD (d * rows * cols + r * cols + c) default
    | _ => []

/-- The max aggregate of a (non-empty) group. -/
def maxVal {α : Type} [LinearOrder α] [Inhabited α] (l : List α) : α :=
  l.max?.getD default

/-- The min aggregate of a (non-empty) group. -/
def minVal {α : Type} [LinearOrder α] [Inhabited α] (l : List α) : α :=
  l.min?.getD default

/-- The mean aggregate of the specification §4.3: sum of the group's
elements, each converted by `f`, divided by the group's element count. -/
def meanVal {α : Type} (f : α → ℚ) (l : List α) : ℚ :=
  (l.map f).sum / (l.length : ℚ)

/-! ### Helper lemmas -/

theorem collectResults_cons_ok {ε α : Type} (a : α) {xs : List (Except ε α)} {v : List α}
    (h : collectResults xs = Except.ok v) :
    collectResults (Except.ok a :: xs) = Except.ok (a :: v) := by
  simp [collectResults, h]

theorem collectResults_map_ok {ε α β : Type} (l : List β) (f : β → α) :
    collectResults (ε := ε) (l.map fun b => Except.ok (f b)) = Except.ok (l.map f) := by
  induction l with
  | nil => rfl
  | cons x xs ih => simpa using collectResults_cons_ok (f x) ih

theorem collectResults_append_ok {ε α : Type} {L₁ L₂ : List (Except ε α)} {v₁ v₂ : List α}
    (h₁ : collectResults L₁ = Except.ok v₁) (h₂ : collectResults L₂ = Except.ok v₂) :
    collectResults (L₁ ++ L₂) = Except.ok (v₁ ++ v₂) := by
  induction L₁ generalizing v₁ with
  | nil =>
    simp only [collectResults] at h₁
    cases h₁
    simpa using h₂
  | cons x xs ih =>
    cases x with
    | error e => simp [collectResults] at h₁
    | ok a =>
      simp only [collectResults] at h₁
      cases hxs : collectResults xs with
      | error e => rw [hxs] at h₁; simp at h₁
      | ok rest =>
        rw [hxs] at h₁
        simp only [Except.ok.injEq] at h₁
        cases h₁
        simpa using collectResults_cons_ok a (ih hxs)

theorem collectResults_flatMap_ok {ε α β : Type} (l : List β)
    (g : β → List (Except ε α)) (f : β → List α)
    (h : ∀ b ∈ l, collectResults (g b) = Except.ok (f b)) :
    collectResults (l.flatMap g) = Except.ok (l.flatMap f) := by
  induction l with
  | nil => rfl
  | cons x xs ih =>
    rw [List.flatMap_cons, List.flatMap_cons]
    exact collectResults_append_ok (h x (by simp)) (ih fun b hb => h b (by simp [hb]))

theorem okOrEmpty_max? {α : Type} [LinearOrder α] [Inhabited α] {l : List α} (h : l ≠ []) :
    okOrEmpty l.max? = Except.ok (maxVal l) := by
  cases l with
  | nil => exact absurd rfl h
  | cons x xs => rfl

theorem okOrEmpty_min? {α : Type} [LinearOrder α] [Inhabited α] {l : List α} (h : l ≠ []) :
    okOrEmpty l.min? = Except.ok (minVal l) := by
  cases l with
  | nil => exact absurd rfl h
  | cons x xs => rfl

theorem take_eq_map_getD {α : Type} [Inhabited α] :
    ∀ (n : Nat) (l : List α), n ≤ l.length →
      l.take n = (List.range n).map fun i => l.getD i default := by
  intro n
  induction n with
  | zero => intro l _; simp
  | succ n ih =>
    intro l h
    cases l with
    | nil => simp at h
    | cons x xs =>
      rw [List.take_succ_cons, List.range_succ_eq_map, List.map_cons, List.map_map]
      have h' : n ≤ xs.length := by simpa using h
      rw [ih xs h']
      simp [Function.comp_def]

theorem drop_take_eq_map_getD {α : Type} [Inhabited α] :
    ∀ (s n : Nat) (l : List α), s + n ≤ l.length →
      (l.drop s).take n = (List.range n).map fun i => l.getD (s + i) default := by
  intro s
  induction s with
  | zero =>
    intro n l h
    simpa using take_eq_map_getD n l (by simpa using h)
  | succ s ih =>
    intro n l h
    cases l with
    | nil => simp at h
    | cons x xs =>
      rw [List.drop_succ_cons, ih n xs (by simp at h; omega)]
      apply List.map_congr_left
      intro i _
      rw [show s + 1 + i = (s + i) + 1 by omega, List.getD_cons_succ]

theorem sliceRange_eq_map_getD {α : Type} [Inhabited α] (l : List α) (s n : Nat)
    (h : s + n ≤ l.length) :
    sliceRange l s (s + n) = (List.range n).map fun i => l.getD (s + i) default := by
  unfold sliceRange
  rw [Nat.add_sub_cancel_left]
  exact drop_take_eq_map_getD s n l h

theorem range_mul_flatMap (m n : Nat) :
    List.range (m * n) = (List.range m).flatMap fun r => (List.range n).map fun c => r * n + c := by
  induction m with
  | zero => simp
  | succ m ih =>
    rw [Nat.succ_mul, List.range_add, List.range_succ, List.flatMap_append, ← ih]
    simp

theorem reduceBody_rank1 {α : Type} [Inhabited α] (op : String)
    (agg : List α → Option α) (v : List α → α)
    (hagg : ∀ l : List α, l ≠ [] → okOrEmpty (agg l) = Except.ok (v l))
    (n : Nat) (data : List α) (hne : data ≠ []) (axis : Option Nat) :
    reduceAxisBody op agg data [n] axis
      = Except.ok ((tableGroups data [n] axis).map v) := by
  show (okOrEmpty (agg data)).map _ = _
  rw [hagg data hne]
  cases axis <;> rfl

theorem reduceBody_rank2 {α : Type} [Inhabited α] (op : String)
    (agg : List α → Option α) (v : List α → α)
    (hagg : ∀ l : List α, l ≠ [] → okOrEmpty (agg l) = Except.ok (v l))
    (rows cols : Nat) (data : List α) (hne : data ≠ [])
    (hlen : data.length = rows * cols) (axis : Option Nat) :
    reduceAxisBody op agg data [rows, cols] axis
      = Except.ok ((tableGroups data [rows, cols] axis).map v) := by
  have hpos : 0 < rows ∧ 0 < cols := by
    have : data.length ≠ 0 := by simpa using hne
    rw [hlen, Nat.mul_ne_zero_iff] at this
    omega
  match axis with
  | none =>
    show (okOrEmpty (agg data)).map _ = _
    rw [hagg data hne]
    rfl
  | some 0 =>
    show collectResults _ = _
    have step : ∀ col ∈ List.range cols,
        okOrEmpty (agg ((List.range rows).map fun row => data.getD (row * cols + col) default))
          = Except.ok (v ((List.range rows).map fun row => data.getD (row * cols + col) default)) := by
      intro col _
      apply hagg
      simp only [ne_eq, List.map_eq_nil_iff, List.range_eq_nil]
      omega
    rw [List.map_congr_left step, collectResults_map_ok]
    show _ = Except.ok
      (((List.range cols).map fun c =>
        (List.range rows).map fun r => data.getD (r * cols + c) default).map v)
    rw [List.map_map]
    rfl
  | some (k + 1) =>
    show collectResults _ = _
    have hslice : ∀ row ∈ List.range rows,
        sliceRange data (row * cols) ((row + 1) * cols)
          = (List.range cols).map fun c => data.getD (row * cols + c) default := by
      intro row hrow
      rw [List.mem_range] at hrow
      rw [show (row + 1) * cols = row * cols + cols by ring]
      apply sliceRange_eq_map_getD
      rw [hlen]
      calc row * cols + cols = (row + 1) * cols := by ring
        _ ≤ rows * cols := Nat.mul_le_mul_right cols hrow
    have step : ∀ row ∈ List.range rows,
        okOrEmpty (agg (sliceRange data (row * cols) ((row + 1) * cols)))
          = Except.ok (v ((List.range cols).map fun c => data.getD (row * cols + c) default)) := by
      intro row hrow
      rw [hslice row hrow]
      apply hagg
      simp only [ne_eq, List.map_eq_nil_iff, List.range_eq_nil]
      omega
    rw [List.map_congr_left step, collectResults_map_ok]
    show _ = Except.ok
      (((List.range rows).map fun r =>
        (List.range cols).map fun c => data.getD (r * cols + c) default).map v)
    rw [List.map_map]
    rfl

theorem reduceBody_rank3 {α : Type} [Inhabited α] (op : String)
    (agg : List α → Option α) (v : List α → α)
    (hagg : ∀ l : List α, l ≠ [] → okOrEmpty (agg l) = Except.ok (v l))
    (depth rows cols : Nat) (data : List α) (hne : data ≠ [])
    (hlen : data.length = depth * rows * cols) (axis : Option Nat)
    (hax : ∀ k, axis = some k → k < 3) :
    reduceAxisBody op agg data [depth, rows, cols] axis
      = Except.ok ((tableGroups data [depth, rows, cols] axis).map v) := by
  have hpos : 0 < depth ∧ 0 < rows ∧ 0 < cols := by
    have h0 : data.length ≠ 0 := by simpa using hne
    rw [hlen, Nat.mul_ne_zero_iff, Nat.mul_ne_zero_iff] at h0
    omega
  match axis with
  | none =>
    show (okOrEmpty (agg data)).map _ = _
    rw [hagg data hne]
    rfl
  | some 0 =>
    show collectResults _ = _
    have step : ∀ i ∈ List.range (rows * cols),
        okOrEmpty (agg ((List.range depth).map fun d => data.getD (d * rows * cols + i) default))
          = Except.ok (v ((List.range depth).map fun d => data.getD (d * rows * cols + i) default)) := by
      intro i _
      apply hagg
      simp only [ne_eq, List.map_eq_nil_iff, List.range_eq_nil]
      omega
    rw [List.map_congr_left step, collectResults_map_ok]
    show _ = Except.ok
      (((List.range rows).flatMap fun r => (List.range cols).map fun c =>
          (List.range depth).map fun d =>
            data.getD (d * rows * cols + r * cols + c) default).map v)
    rw [range_mul_flatMap rows cols, List.map_flatMap, List.map_flatMap]
    simp only [List.map_map, Function.comp_def, Nat.add_assoc]
  | some 1 =>
    show collectResults _ = _
    show _ = Except.ok
      (((List.range depth).flatMap fun d => (List.range cols).map fun c =>
          (List.range rows).map fun r =>
            data.getD (d * rows * cols + r * cols + c) default).map v)
    rw [List.map_flatMap]
    simp only [List.map_map]
    apply collectResults_flatMap_ok
    intro d _
    have step : ∀ c ∈ List.range cols,
        okOrEmpty (agg ((List.range rows).map fun r =>
            data.getD (d * rows * cols + r * cols + c) default))
          = Except.ok (v ((List.range rows).map fun r =>
            data.getD (d * rows * cols + r * cols + c) default)) := by
      intro c _
      apply hagg
      simp only [ne_eq, List.map_eq_nil_iff, List.range_eq_nil]
      omega
    rw [List.map_congr_left step, collectResults_map_ok]
    rfl
  | some 2 =>
    show collectResults _ = _
    show _ = Except.ok
      (((List.range depth).flatMap fun d => (List.range rows).map fun r =>
          (List.range cols).map fun c =>
            data.getD (d * rows * cols + r * cols + c) default).map v)
    rw [List.map_flatMap]
    simp only [List.map_map]
    apply collectResults_flatMap_ok
    intro d hd
    rw [List.mem_range] at hd
    have hslice : ∀ r ∈ List.range rows,
        sliceRange data (d * rows * cols + r * cols) (d * rows * cols + r * cols + cols)
          = (List.range cols).map fun c =>
              data.getD (d * rows * cols + r * cols + c) default := by
      intro r hr
      rw [List.mem_range] at hr
      apply sliceRange_eq_map_getD
      rw [hlen]
      have h1 : (d + 1) * rows ≤ depth * rows := Nat.mul_le_mul_right rows hd
      have h2 : (d + 1) * rows = d * rows + rows := by ring
      have h3 : d * rows + r + 1 ≤ depth * rows := by omega
      calc d * rows * cols + r * cols + cols = (d * rows + r + 1) * cols := by ring
        _ ≤ depth * rows * cols := Nat.mul_le_mul_right cols h3
    have step : ∀ r ∈ List.range rows,
        okOrEmpty (agg (sliceRange data (d * rows * cols + r * cols)
            (d * rows * cols + r * cols + cols)))
          = Except.ok (v ((List.range cols).map fun c =>
              data.getD (d * rows * cols + r * cols + c) default)) := by
      intro r hr
      rw [hslice r hr]
      apply hagg
      simp only [ne_eq, List.map_eq_nil_iff, List.range_eq_nil]
      omega
    rw [List.map_congr_left step, collectResults_map_ok]
    rfl
  | some (k + 3) => exact absurd (hax (k + 3) rfl) (by omega)

theorem meanBody_rank1 {α : Type} [Inhabited α] (f : α → ℚ)
    (n : Nat) (data : List α) (axis : Option Nat) :
    meanAxisBody f data [n] axis
      = Except.ok ((tableGroups data [n] axis).map (meanVal f)) := by
  cases axis <;> rfl

theorem meanBody_rank2 {α : Type} [Inhabited α] (f : α → ℚ)
    (rows cols : Nat) (data : List α) (hlen : data.length = rows * cols)
    (axis : Option Nat) :
    meanAxisBody f data [rows, cols] axis
      = Except.ok ((tableGroups data [rows, cols] axis).map (meanVal f)) := by
  match axis with
  | none =>
    show Except.ok _ = _
    simp [tableGroups, meanVal, hlen]
  | some 0 =>
    show collectResults _ = _
    rw [collectResults_map_ok]
    show _ = Except.ok
      (((List.range cols).map fun c =>
        (List.range rows).map fun r => data.getD (r * cols + c) default).map (meanVal f))
    rw [List.map_map]
    apply congrArg
    apply List.map_congr_left
    intro c _
    simp [meanVal, Function.comp_def]
  | some (k + 1) =>
    show collectResults _ = _
    have hslice : ∀ row ∈ List.range rows,
        sliceRange data (row * cols) ((row + 1) * cols)
          = (List.range cols).map fun c => data.getD (row * cols + c) default := by
      intro row hrow
      rw [List.mem_range] at hrow
      rw [show (row + 1) * cols = row * cols + cols by ring]
      apply sliceRange_eq_map_getD
      rw [hlen]
      calc row * cols + cols = (row + 1) * cols := by ring
        _ ≤ rows * cols := Nat.mul_le_mul_right cols hrow
    have step : ∀ row ∈ List.range rows,
        Except.ok (ε := ArrayError)
            (((sliceRange data (row * cols) ((row + 1) * cols)).map f).sum / (cols : ℚ))
          = Except.ok
              (meanVal f ((List.range cols).map fun c => data.getD (row * cols + c) default)) := by
      intro row hrow
      rw [hslice row hrow]
      simp [meanVal, Function.comp_def]
    rw [List.map_congr_left step, collectResults_map_ok]
    show _ = Except.ok
      (((List.range rows).map fun r =>
        (List.range cols).map fun c => data.getD (r * cols + c) default).map (meanVal f))
    rw [List.map_map]
    rfl

theorem meanBody_rank3 {α : Type} [Inhabited α] (f : α → ℚ)
    (depth rows cols : Nat) (data : List α) (hlen : data.length = depth * rows * cols)
    (axis : Option Nat) (hax : ∀ k, axis = some k → k < 3) :
    meanAxisBody f data [depth, rows, cols] axis
      = Except.ok ((tableGroups data [depth, rows, cols] axis).map (meanVal f)) := by
  match axis with
  | none =>
    show Except.ok _ = _
    simp [tableGroups, meanVal, hlen]
  | some 0 =>
    show collectResults _ = _
    rw [collectResults_map_ok]
    show _ = Except.ok
      (((List.range rows).flatMap fun r => (List.range cols).map fun c =>
          (List.range depth).map fun d =>
            data.getD (d * rows * cols + r * cols + c) default).map (meanVal f))
    rw [range_mul_flatMap rows cols, List.map_flatMap, List.map_flatMap]
    simp only [List.map_map]
    apply congrArg
    congr 1
    funext r
    congr 1
    funext c
    simp [meanVal, Function.comp_def, Nat.add_assoc]
  | some 1 =>
    show collectResults _ = _
    show _ = Except.ok
      (((List.range depth).flatMap fun d => (List.range cols).map fun c =>
          (List.range rows).map fun r =>
            data.getD (d * rows * cols + r * cols + c) default).map (meanVal f))
    rw [List.map_flatMap]
    simp only [List.map_map]
    apply collectResults_flatMap_ok
    intro d _
    rw [collectResults_map_ok]
    apply congrArg
    apply List.map_congr_left
    intro c _
    simp [meanVal, Function.comp_def]
  | some 2 =>
    show collectResults _ = _
    show _ = Except.ok
      (((List.range depth).flatMap fun d => (List.range rows).map fun r =>
          (List.range cols).map fun c =>
            data.getD (d * rows * cols + r * cols + c) default).map (meanVal f))
    rw [List.map_flatMap]
    simp only [List.map_map]
    apply collectResults_flatMap_ok
    intro d hd
    rw [List.mem_range] at hd
    have hslice : ∀ r ∈ List.range rows,
        sliceRange data (d * rows * cols + r * cols) (d * rows * cols + r * cols + cols)
          = (List.range cols).map fun c =>
              data.getD (d * rows * cols + r * cols + c) default := by
      intro r hr
      rw [List.mem_range] at hr
      apply sliceRange_eq_map_getD
      rw [hlen]
      have h1 : (d + 1) * rows ≤ depth * rows := Nat.mul_le_mul_right rows hd
      have h2 : (d + 1) * rows = d * rows + rows := by ring
      have h3 : d * rows + r + 1 ≤ depth * rows := by omega
      calc d * rows * cols + r * cols + cols = (d * rows + r + 1) * cols := by ring
        _ ≤ depth * rows * cols := Nat.mul_le_mul_right cols h3
    have step : ∀ r ∈ List.range rows,
        Except.ok (ε := ArrayError)
            (((sliceRange data (d * rows * cols + r * cols)
                (d * rows * cols + r * cols + cols)).map f).sum / (cols : ℚ))
          = Except.ok
              (meanVal f ((List.range cols).map fun c =>
                data.getD (d * rows * cols + r * cols + c) default)) := by
      intro r hr
      rw [hslice r hr]
      simp [meanVal, Function.comp_def]
    rw [List.map_congr_left step, collectResults_map_ok]
    rfl
  | some (k + 3) => exact absurd (hax (k + 3) rfl) (by omega)

theorem maxCompute_eq_body {α : Type} [LinearOrder α] [Inhabited α] (a : Array α)
    (ax : Option Nat) (hne : a.data ≠ [])
    (hax : ∀ k, ax = some k → k < a.shape.rawDim.ndim) :
    a.maxCompute ax = maxAxisBody a.data a.shape.rawDim.dims ax := by
  have hE : a.data.isEmpty = false := List.isEmpty_eq_false.mpr hne
  cases ax with
  | none => simp [Array.maxCompute, hE]
  | some k =>
    have hk : k < a.shape.rawDim.ndim := hax k rfl
    simp only [Array.maxCompute, hE, Bool.false_eq_true, if_false]
    rw [if_neg (by omega)]

theorem minCompute_eq_body {α : Type} [LinearOrder α] [Inhabited α] (a : Array α)
    (ax : Option Nat) (hne : a.data ≠ [])
    (hax : ∀ k, ax = some k → k < a.shape.rawDim.ndim) :
    a.minCompute ax = minAxisBody a.data a.shape.rawDim.dims ax := by
  have hE : a.data.isEmpty = false := List.isEmpty_eq_false.mpr hne
  cases ax with
  | none => simp [Array.minCompute, hE]
  | some k =>
    have hk : k < a.shape.rawDim.ndim := hax k rfl
    simp only [Array.minCompute, hE, Bool.false_eq_true, if_false]
    rw [if_neg (by omega)]

theorem meanCompute_eq_body {α : Type} [Inhabited α] (f : α → ℚ) (a : Array α)
    (ax : Option Nat) (hne : a.data ≠ [])
    (hax : ∀ k, ax = some k → k < a.shape.rawDim.ndim) :
    a.meanCompute f ax = meanAxisBody f a.data a.shape.rawDim.dims ax := by
  have hE : a.data.isEmpty = false := List.isEmpty_eq_false.mpr hne
  cases ax with
  | none => simp [Array.meanCompute, hE]
  | some k =>
    have hk : k < a.shape.rawDim.ndim := hax k rfl
    simp only [Array.meanCompute, hE, Bool.false_eq_true, if_false]
    rw [if_neg (by omega)]

theorem maxCompute_eq_table {α : Type} [LinearOrder α] [Inhabited α] (a : Array α)
    (ax : Option Nat) (hne : a.data ≠ []) (hlen : a.data.length = a.shape.size)
    (hrank : a.shape.rawDim.ndim = 1 ∨ a.shape.rawDim.ndim = 2 ∨ a.shape.rawDim.ndim = 3)
    (hax : ∀ k, ax = some k → k < a.shape.rawDim.ndim) :
    a.maxCompute ax = Except.ok ((tableGroups a.data a.shape.rawDim.dims ax).map maxVal) := by
  rw [maxCompute_eq_body a ax hne hax]
  have hmax : ∀ l : List α, l ≠ [] → okOrEmpty l.max? = Except.ok (maxVal l) :=
    fun l hl => okOrEmpty_max? hl
  rcases hrank with h | h | h
  · obtain ⟨n, hd⟩ := List.length_eq_one.mp h
    rw [hd]
    exact reduceBody_rank1 "max" _ maxVal hmax n a.data hne ax
  · obtain ⟨rows, cols, hd⟩ := List.length_eq_two.mp h
    have hlen' : a.data.length = rows * cols := by
      rw [hlen]
      show a.shape.rawDim.dims.prod = rows * cols
      rw [hd]
      simp
    rw [hd]
    exact reduceBody_rank2 "max" _ maxVal hmax rows cols a.data hne hlen' ax
  · obtain ⟨depth, rows, cols, hd⟩ := List.length_eq_three.mp h
    have hlen' : a.data.length = depth * rows * cols := by
      rw [hlen]
      show a.shape.rawDim.dims.prod = depth * rows * cols
      rw [hd]
      simp [Nat.mul_assoc]
    rw [hd]
    exact reduceBody_rank3 "max" _ maxVal hmax depth rows cols a.data hne hlen' ax
      (by rw [h] at hax; exact hax)

theorem minCompute_eq_table {α : Type} [LinearOrder α] [Inhabited α] (a : Array α)
    (ax : Option Nat) (hne : a.data ≠ []) (hlen : a.data.length = a.shape.size)
    (hrank : a.shape.rawDim.ndim = 1 ∨ a.shape.rawDim.ndim = 2 ∨ a.shape.rawDim.ndim = 3)
    (hax : ∀ k, ax = some k → k < a.shape.rawDim.ndim) :
    a.minCompute ax = Except.ok ((tableGroups a.data a.shape.rawDim.dims ax).map minVal) := by
  rw [minCompute_eq_body a ax hne hax]
  have hmin : ∀ l : List α, l ≠ [] → okOrEmpty l.min? = Except.ok (minVal l) :=
    fun l hl => okOrEmpty_min? hl
  rcases hrank with h | h | h
  · obtain ⟨n, hd⟩ := List.length_eq_one.mp h
    rw [hd]
    exact reduceBody_rank1 "min" _ minVal hmin n a.data hne ax
  · obtain ⟨rows, cols, hd⟩ := List.length_eq_two.mp h
    have hlen' : a.data.length = rows * cols := by
      rw [hlen]
      show a.shape.rawDim.dims.prod = rows * cols
      rw [hd]
      simp
    rw [hd]
    exact reduceBody_rank2 "min" _ minVal hmin rows cols a.data hne hlen' ax
  · obtain ⟨depth, rows, cols, hd⟩ := List.length_eq_three.mp h
    have hlen' : a.data.length = depth * rows * cols := by
      rw [hlen]
      show a.shape.rawDim.dims.prod = depth * rows * cols
      rw [hd]
      simp [Nat.mul_assoc]
    rw [hd]
    exact reduceBody_rank3 "min" _ minVal hmin depth rows cols a.data hne hlen' ax
      (by rw [h] at hax; exact hax)

theorem meanCompute_eq_table {α : Type} [Inhabited α] (f : α → ℚ) (a : Array α)
    (ax : Option Nat) (hne : a.data ≠ []) (hlen : a.data.length = a.shape.size)
    (hrank : a.shape.rawDim.ndim = 1 ∨ a.shape.rawDim.ndim = 2 ∨ a.shape.rawDim.ndim = 3)
    (hax : ∀ k, ax = some k → k < a.shape.rawDim.ndim) :
    a.meanCompute f ax
      = Except.ok ((tableGroups a.data a.shape.rawDim.dims ax).map (meanVal f)) := by
  rw [meanCompute_eq_body f a ax hne hax]
  rcases hrank with h | h | h
  · obtain ⟨n, hd⟩ := List.length_eq_one.mp h
    rw [hd]
    exact meanBody_rank1 f n a.data ax
  · obtain ⟨rows, cols, hd⟩ := List.length_eq_two.mp h
    have hlen' : a.data.length = rows * cols := by
      rw [hlen]
      show a.shape.rawDim.dims.prod = rows * cols
      rw [hd]
      simp
    rw [hd]
    exact meanBody_rank2 f rows cols a.data hlen' ax
  · obtain ⟨depth, rows, cols, hd⟩ := List.length_eq_three.mp h
    have hlen' : a.data.length = depth * rows * cols := by
      rw [hlen]
      show a.shape.rawDim.dims.prod = depth * rows * cols
      rw [hd]
      simp [Nat.mul_assoc]
    rw [hd]
    exact meanBody_rank3 f depth rows cols a.data hlen' ax (by rw [h] at hax; exact hax)

theorem maxCompute_empty {α : Type} [LinearOrder α] [Inhabited α] (a : Array α)
    (ax : Option Nat) (h : a.data = []) :
    a.maxCompute ax = Except.error ArrayError.emptyArray := by
  simp [Array.maxCompute, h]

theorem minCompute_empty {α : Type} [LinearOrder α] [Inhabited α] (a : Array α)
    (ax : Option Nat) (h : a.data = []) :
    a.minCompute ax = Except.error ArrayError.emptyArray := by
  simp [Array.minCompute, h]

theorem meanCompute_empty {α : Type} [Inhabited α] (f : α → ℚ) (a : Array α)
    (ax : Option Nat) (h : a.data = []) :
    a.meanCompute f ax = Except.error ArrayError.emptyArray := by
  simp [Array.meanCompute, h]

theorem maxCompute_invalidAxis {α : Type} [LinearOrder α] [Inhabited α] (a : Array α)
    (k : Nat) (hne : a.data ≠ []) (hge : a.shape.rawDim.ndim ≤ k) :
    a.maxCompute (some k)
      = Except.error (ArrayError.invalidAxis (invalidAxisMsg k a.shape.rawDim.ndim)) := by
  have hE : a.data.isEmpty = false := List.isEmpty_eq_false.mpr hne
  simp [Array.maxCompute, hE, hge]

theorem minCompute_invalidAxis {α : Type} [LinearOrder α] [Inhabited α] (a : Array α)
    (k : Nat) (hne : a.data ≠ []) (hge : a.shape.rawDim.ndim ≤ k) :
    a.minCompute (some k)
      = Except.error (ArrayError.invalidAxis (invalidAxisMsg k a.shape.rawDim.ndim)) := by
  have hE : a.data.isEmpty = false := List.isEmpty_eq_false.mpr hne
  simp [Array.minCompute, hE, hge]

theorem meanCompute_invalidAxis {α : Type} [Inhabited α] (f : α → ℚ) (a : Array α)
    (k : Nat) (hne : a.data ≠ []) (hge : a.shape.rawDim.ndim ≤ k) :
    a.meanCompute f (some k)
      = Except.error (ArrayError.invalidAxis (invalidAxisMsg k a.shape.rawDim.ndim)) := by
  have hE : a.data.isEmpty = false := List.isEmpty_eq_false.mpr hne
  simp [Array.meanCompute, hE, hge]

theorem reduceBody_unimpl {α : Type} [Inhabited α] (op : String) (agg : List α → Option α)
    (data : List α) (dims : List Nat) (axis : Option Nat)
    (h1 : dims.length ≠ 1) (h2 : dims.length ≠ 2) (h3 : dims.length ≠ 3) :
    reduceAxisBody op agg data dims axis
      = Except.error (ArrayError.unimplementedDimension (unimplementedMsg dims.length op)) := by
  match dims with
  | [] => rfl
  | [a] => exact absurd rfl h1
  | [a, b] => exact absurd rfl h2
  | [a, b, c] => exact absurd rfl h3
  | a :: b :: c :: d :: tl => rfl

theorem meanBody_unimpl {α : Type} [Inhabited α] (f : α → ℚ)
    (data : List α) (dims : List Nat) (axis : Option Nat)
    (h1 : dims.length ≠ 1) (h2 : dims.length ≠ 2) (h3 : dims.length ≠ 3) :
    meanAxisBody f data dims axis
      = Except.error (ArrayError.unimplementedDimension (unimplementedMsg dims.length "mean")) := by
  match dims with
  | [] => rfl
  | [a] => exact absurd rfl h1
  | [a, b] => exact absurd rfl h2
  | [a, b, c] => exact absurd rfl h3
  | a :: b :: c :: d :: tl => rfl

theorem maxCompute_unimpl {α : Type} [LinearOrder α] [Inhabited α] (a : Array α)
    (ax : Option Nat) (hne : a.data ≠ [])
    (hax : ∀ k, ax = some k → k < a.shape.rawDim.ndim)
    (h1 : a.shape.rawDim.ndim ≠ 1) (h2 : a.shape.rawDim.ndim ≠ 2)
    (h3 : a.shape.rawDim.ndim ≠ 3) :
    a.maxCompute ax
      = Except.error
          (ArrayError.unimplementedDimension (unimplementedMsg a.shape.rawDim.ndim "max")) := by
  rw [maxCompute_eq_body a ax hne hax]
  exact reduceBody_unimpl "max" _ a.data a.shape.rawDim.dims ax h1 h2 h3

theorem minCompute_unimpl {α : Type} [LinearOrder α] [Inhabited α] (a : Array α)
    (ax : Option Nat) (hne : a.data ≠ [])
    (hax : ∀ k, ax = some k → k < a.shape.rawDim.ndim)
    (h1 : a.shape.rawDim.ndim ≠ 1) (h2 : a.shape.rawDim.ndim ≠ 2)
    (h3 : a.shape.rawDim.ndim ≠ 3) :
    a.minCompute ax
      = Except.error
          (ArrayError.unimplementedDimension (unimplementedMsg a.shape.rawDim.ndim "min")) := by
  rw [minCompute_eq_body a ax hne hax]
  exact reduceBody_unimpl "min" _ a.data a.shape.rawDim.dims ax h1 h2 h3

theorem meanCompute_unimpl {α : Type} [Inhabited α] (f : α → ℚ) (a : Array α)
    (ax : Option Nat) (hne : a.data ≠ [])
    (hax : ∀ k, ax = some k → k < a.shape.rawDim.ndim)
    (h1 : a.shape.rawDim.ndim ≠ 1) (h2 : a.shape.rawDim.ndim ≠ 2)
    (h3 : a.shape.rawDim.ndim ≠ 3) :
    a.meanCompute f ax
      = Except.error
          (ArrayError.unimplementedDimension (unimplementedMsg a.shape.rawDim.ndim "mean")) := by
  rw [meanCompute_eq_body f a ax hne hax]
  exact meanBody_unimpl f a.data a.shape.rawDim.dims ax h1 h2 h3

/-! ### Claim theorems -/

/-- C5 counterexample: the claim says `size()` of an empty extent list
(rank 0) is 0, but `dims.iter().product()` of an empty iterator is 1,
so `Ix::size` returns 1, not 0, on the rank-0 dimension value. -/
theorem ix_size_rank0_counterexample :
    (Ix.mk []).size = 1 ∧ (Ix.mk []).size ≠ 0 := by
  decide

/-- C5 (amended): for every `Ix` value, `size()` equals the product of
all its extents, hence it is 0 whenever any extent is 0; but for the
empty extent list (rank 0) the empty product makes `size()` equal 1,
not 0. -/
theorem ix_size_eq_prod_dims (ix : Ix) :
    ix.size = ix.dims.prod
    ∧ (0 ∈ ix.dims → ix.size = 0)
    ∧ (ix.dims = [] → ix.size = 1) := by
  refine ⟨rfl, ?_, ?_⟩
  · intro h0
    exact List.prod_eq_zero h0
  · intro h
    simp [Ix.size, h]

/-- C5 witness: `ix_size_eq_prod_dims` applied to the concrete
dimension value `[0, 5]`, whose zero extent forces size 0. -/
theorem ix_size_eq_prod_dims_witness : (Ix.mk [0, 5]).size = 0 :=
  (ix_size_eq_prod_dims (Ix.mk [0, 5])).2.1 (by decide)

/-- C7: `Array::new` succeeds exactly when `data.len() == shape.size()`;
on failure it returns `DimensionMismatch` carrying
`expected = shape.size()` and `actual = data.len()` and produces no
array; on success the produced array holds the given data and shape and
satisfies the size invariant. -/
theorem array_new_size_invariant {α : Type} (data : List α) (s : Shape) :
    (data.length = s.size → Array.new data s = Except.ok (Array.mk data s))
    ∧ (data.length ≠ s.size →
        Array.new data s = Except.error (ArrayError.dimensionMismatch s.size data.length))
    ∧ (∀ arr : Array α, Array.new data s = Except.ok arr →
        arr.data = data ∧ arr.shape = s ∧ arr.data.length = arr.shape.size) := by
  refine ⟨?_, ?_, ?_⟩
  · intro h
    simp [Array.new, h]
  · intro h
    simp [Array.new, h]
  · intro arr h
    by_cases hc : data.length = s.size
    · simp only [Array.new, hc, ne_eq, not_true_eq_false, if_neg, ite_false,
        Except.ok.injEq, not_false_eq_true, if_false] at h
      subst h
      exact ⟨rfl, rfl, hc⟩
    · simp [Array.new, hc] at h

/-- C7 witness: `array_new_size_invariant` at a concrete matching
buffer/shape pair. -/
theorem array_new_size_invariant_witness :
    Array.new ([7] : List Int) (Shape.mk (Ix.mk [1]))
      = Except.ok (Array.mk [7] (Shape.mk (Ix.mk [1]))) :=
  (array_new_size_invariant [7] (Shape.mk (Ix.mk [1]))).1 (by decide)

/-- C8: the size invariant `data.len() == shape.size()` is established
by construction and preserved by the in-place fills `zeros()` and
`ones()`, which keep both the buffer length and the shape unchanged. -/
theorem array_invariant_preserved {α : Type} [Zero α] [One α] (a : Array α)
    (hinv : a.data.length = a.shape.size) :
    (∀ (data : List α) (s : Shape) (arr : Array α),
        Array.new data s = Except.ok arr → arr.data.length = arr.shape.size)
    ∧ (a.zeros.data.length = a.zeros.shape.size ∧ a.zeros.shape = a.shape
        ∧ a.zeros.data.length = a.data.length)
    ∧ (a.ones.data.length = a.ones.shape.size ∧ a.ones.shape = a.shape
        ∧ a.ones.data.length = a.data.length) := by
  refine ⟨?_, ?_, ?_⟩
  · intro data s arr h
    by_cases hc : data.length = s.size
    · simp only [Array.new, hc, ne_eq, not_true_eq_false, ite_false,
        Except.ok.injEq, not_false_eq_true, if_false] at h
      subst h
      exact hc
    · simp [Array.new, hc] at h
  · exact ⟨by simpa [Array.zeros] using hinv, rfl, by simp [Array.zeros]⟩
  · exact ⟨by simpa [Array.ones] using hinv, rfl, by simp [Array.ones]⟩

/-- C8 witness: `array_invariant_preserved` at a concrete 1-D integer
array satisfying the invariant. -/
theorem array_invariant_preserved_witness :
    (Array.mk ([5, 6] : List Int) ⟨⟨[2]⟩⟩).zeros.data.length
      = (Array.mk ([5, 6] : List Int) ⟨⟨[2]⟩⟩).zeros.shape.size :=
  ((array_invariant_preserved (Array.mk ([5, 6] : List Int) ⟨⟨[2]⟩⟩) (by decide)).2.1).1

/-- C2: the reduction operations fail with `EmptyArray` on a zero-length
buffer regardless of the requested axis; with `InvalidAxis` when the
buffer is non-empty and the requested axis is at least the rank; and
with `UnimplementedDimension` when the buffer is non-empty, any
requested axis is in range, and the rank is not 1, 2, or 3. -/
theorem reduction_error_policy {α : Type} [LinearOrder α] [Inhabited α] (f : α → ℚ)
    (a : Array α) (ax : Option Nat) :
    (a.data = [] →
        a.maxCompute ax = Except.error ArrayError.emptyArray
        ∧ a.minCompute ax = Except.error ArrayError.emptyArray
        ∧ a.meanCompute f ax = Except.error ArrayError.emptyArray)
    ∧ (∀ k, a.data ≠ [] → ax = some k → a.shape.rawDim.ndim ≤ k →
        a.maxCompute ax
            = Except.error (ArrayError.invalidAxis (invalidAxisMsg k a.shape.rawDim.ndim))
        ∧ a.minCompute ax
            = Except.error (ArrayError.invalidAxis (invalidAxisMsg k a.shape.rawDim.ndim))
        ∧ a.meanCompute f ax
            = Except.error (ArrayError.invalidAxis (invalidAxisMsg k a.shape.rawDim.ndim)))
    ∧ (a.data ≠ [] → (∀ k, ax = some k → k < a.shape.rawDim.ndim) →
        a.shape.rawDim.ndim ≠ 1 → a.shape.rawDim.ndim ≠ 2 → a.shape.rawDim.ndim ≠ 3 →
        a.maxCompute ax = Except.error
            (ArrayError.unimplementedDimension (unimplementedMsg a.shape.rawDim.ndim "max"))
        ∧ a.minCompute ax = Except.error
            (ArrayError.unimplementedDimension (unimplementedMsg a.shape.rawDim.ndim "min"))
        ∧ a.meanCompute f ax = Except.error
            (ArrayError.unimplementedDimension (unimplementedMsg a.shape.rawDim.ndim "mean"))) := by
  refine ⟨?_, ?_, ?_⟩
  · intro h
    exact ⟨maxCompute_empty a ax h, minCompute_empty a ax h, meanCompute_empty f a ax h⟩
  · intro k hne hk hge
    subst hk
    exact ⟨maxCompute_invalidAxis a k hne hge, minCompute_invalidAxis a k hne hge,
      meanCompute_invalidAxis f a k hne hge⟩
  · intro hne hax h1 h2 h3
    exact ⟨maxCompute_unimpl a ax hne hax h1 h2 h3, minCompute_unimpl a ax hne hax h1 h2 h3,
      meanCompute_unimpl f a ax hne hax h1 h2 h3⟩

/-- C2 witness: `reduction_error_policy` at three concrete arrays, one
per error kind. -/
theorem reduction_error_policy_witness :
    (Array.mk ([] : List Int) ⟨⟨[0]⟩⟩).maxCompute none = Except.error ArrayError.emptyArray
    ∧ (Array.mk ([5] : List Int) ⟨⟨[1]⟩⟩).maxCompute (some 7)
        = Except.error (ArrayError.invalidAxis (invalidAxisMsg 7 1))
    ∧ (Array.mk ([5] : List Int) ⟨⟨[1, 1, 1, 1]⟩⟩).maxCompute none
        = Except.error (ArrayError.unimplementedDimension (unimplementedMsg 4 "max")) :=
  ⟨((reduction_error_policy (fun x : Int => (x : ℚ)) _ none).1 rfl).1,
   ((reduction_error_policy (fun x : Int => (x : ℚ)) _ (some 7)).2.1 7 (by decide) rfl
      (by decide)).1,
   ((reduction_error_policy (fun x : Int => (x : ℚ)) _ none).2.2 (by decide)
      (fun k h => nomatch h) (by decide) (by decide) (by decide)).1⟩

/-- C10: the validation checks run in a fixed order — emptiness, then
axis bounds, then rank dispatch.  An empty buffer yields `EmptyArray`
whatever the axis and rank; a non-empty array with an out-of-range axis
yields `InvalidAxis` even when the rank is outside {1,2,3}; and
`UnimplementedDimension` can only be produced when the buffer is
non-empty and any supplied axis is in range. -/
theorem reduction_validation_order {α : Type} [LinearOrder α] [Inhabited α] (f : α → ℚ)
    (a : Array α) (ax : Option Nat) :
    (a.data = [] →
        a.maxCompute ax = Except.error ArrayError.emptyArray
        ∧ a.minCompute ax = Except.error ArrayError.emptyArray
        ∧ a.meanCompute f ax = Except.error ArrayError.emptyArray)
    ∧ (∀ k, a.data ≠ [] → ax = some k → a.shape.rawDim.ndim ≤ k →
        a.shape.rawDim.ndim ≠ 1 → a.shape.rawDim.ndim ≠ 2 → a.shape.rawDim.ndim ≠ 3 →
        a.maxCompute ax
            = Except.error (ArrayError.invalidAxis (invalidAxisMsg k a.shape.rawDim.ndim))
        ∧ a.minCompute ax
            = Except.error (ArrayError.invalidAxis (invalidAxisMsg k a.shape.rawDim.ndim))
        ∧ a.meanCompute f ax
            = Except.error (ArrayError.invalidAxis (invalidAxisMsg k a.shape.rawDim.ndim)))
    ∧ (∀ m, a.maxCompute ax = Except.error (ArrayError.unimplementedDimension m) →
        a.data ≠ [] ∧ ∀ k, ax = some k → k < a.shape.rawDim.ndim)
    ∧ (∀ m, a.minCompute ax = Except.error (ArrayError.unimplementedDimension m) →
        a.data ≠ [] ∧ ∀ k, ax = some k → k < a.shape.rawDim.ndim)
    ∧ (∀ m, a.meanCompute f ax = Except.error (ArrayError.unimplementedDimension m) →
        a.data ≠ [] ∧ ∀ k, ax = some k → k < a.shape.rawDim.ndim) := by
  refine ⟨?_, ?_, ?_, ?_, ?_⟩
  · intro h
    exact ⟨maxCompute_empty a ax h, minCompute_empty a ax h, meanCompute_empty f a ax h⟩
  · intro k hne hk hge _ _ _
    subst hk
    exact ⟨maxCompute_invalidAxis a k hne hge, minCompute_invalidAxis a k hne hge,
      meanCompute_invalidAxis f a k hne hge⟩
  · intro m h
    by_cases hne : a.data = []
    · rw [maxCompute_empty a ax hne] at h
      simp at h
    refine ⟨hne, fun k hk => ?_⟩
    by_contra hlt
    push_neg at hlt
    subst hk
    rw [maxCompute_invalidAxis a k hne hlt] at h
    simp at h
  · intro m h
    by_cases hne : a.data = []
    · rw [minCompute_empty a ax hne] at h
      simp at h
    refine ⟨hne, fun k hk => ?_⟩
    by_contra hlt
    push_neg at hlt
    subst hk
    rw [minCompute_invalidAxis a k hne hlt] at h
    simp at h
  · intro m h
    by_cases hne : a.data = []
    · rw [meanCompute_empty f a ax hne] at h
      simp at h
    refine ⟨hne, fun k hk => ?_⟩
    by_contra hlt
    push_neg at hlt
    subst hk
    rw [meanCompute_invalidAxis f a k hne hlt] at h
    simp at h

/-- C10 witness: `reduction_validation_order` at concrete inputs — a
non-empty rank-4 array with an out-of-range axis gets `InvalidAxis`
(not `UnimplementedDimension`), and from a concrete
`UnimplementedDimension` outcome the preconditions are recovered. -/
theorem reduction_validation_order_witness :
    (Array.mk ([5] : List Int) ⟨⟨[1, 1, 1, 1]⟩⟩).maxCompute (some 9)
        = Except.error (ArrayError.invalidAxis (invalidAxisMsg 9 4))
    ∧ (([5] : List Int) ≠ []
        ∧ ∀ k, (none : Option Nat) = some k
            → k < (Shape.mk (Ix.mk [1, 1, 1, 1])).rawDim.ndim) :=
  ⟨((reduction_validation_order (fun x : Int => (x : ℚ)) _ (some 9)).2.1 9 (by decide) rfl
      (by decide) (by decide) (by decide) (by decide)).1,
   (reduction_validation_order (fun x : Int => (x : ℚ))
      (Array.mk ([5] : List Int) ⟨⟨[1, 1, 1, 1]⟩⟩) none).2.2.1 (unimplementedMsg 4 "max") rfl⟩

/-- C6 counterexample: triggering a reduction error through the public
builder path does not yield a caller-visible typed failure: the builder
`compute()` unwraps the engine result, so on the validly constructed
empty array it panics — modelled by `none` — instead of returning the
typed `EmptyArray` error. -/
theorem builder_unwrap_aborts :
    Array.new ([] : List Int) ⟨⟨[0]⟩⟩ = Except.ok (Array.mk [] ⟨⟨[0]⟩⟩)
    ∧ (Array.mk ([] : List Int) ⟨⟨[0]⟩⟩).max.compute = none :=
  ⟨rfl, rfl⟩

/-- C6 (amended): all four error conditions are surfaced as typed,
recoverable values by the validated constructor and the engine-level
`*_compute` functions, but the builder front-end's `compute()` unwraps
the engine result, so a reduction error reached through the public
builder path panics (aborts) instead of being returned as a typed
failure. -/
theorem errors_typed_at_engine_builder_unwraps {α : Type} [LinearOrder α] [Inhabited α]
    (f : α → ℚ) :
    (∀ (data : List α) (s : Shape), data.length ≠ s.size →
        Array.new data s = Except.error (ArrayError.dimensionMismatch s.size data.length))
    ∧ (∀ (a : Array α) (ax : Option Nat), a.data = [] →
        a.maxCompute ax = Except.error ArrayError.emptyArray)
    ∧ (∀ (a : Array α) (k : Nat), a.data ≠ [] → a.shape.rawDim.ndim ≤ k →
        a.maxCompute (some k)
          = Except.error (ArrayError.invalidAxis (invalidAxisMsg k a.shape.rawDim.ndim)))
    ∧ (∀ (a : Array α) (ax : Option Nat), a.data ≠ [] →
        (∀ k, ax = some k → k < a.shape.rawDim.ndim) →
        a.shape.rawDim.ndim ≠ 1 → a.shape.rawDim.ndim ≠ 2 → a.shape.rawDim.ndim ≠ 3 →
        a.maxCompute ax = Except.error
          (ArrayError.unimplementedDimension (unimplementedMsg a.shape.rawDim.ndim "max")))
    ∧ (∀ (b : MaxBuilder α) (e : ArrayError),
        b.array.maxCompute b.axis = Except.error e → b.compute = none)
    ∧ (∀ (b : MinBuilder α) (e : ArrayError),
        b.array.minCompute b.axis = Except.error e → b.compute = none)
    ∧ (∀ (b : MeanBuilder α) (e : ArrayError),
        b.array.meanCompute f b.axis = Except.error e → b.compute f = none) := by
  refine ⟨?_, ?_, ?_, ?_, ?_, ?_, ?_⟩
  · intro data s h
    simp [Array.new, h]
  · exact fun a ax h => maxCompute_empty a ax h
  · exact fun a k hne hge => maxCompute_invalidAxis a k hne hge
  · exact fun a ax hne hax h1 h2 h3 => maxCompute_unimpl a ax hne hax h1 h2 h3
  · intro b e h
    simp [MaxBuilder.compute, h, Except.toOption]
  · intro b e h
    simp [MinBuilder.compute, h, Except.toOption]
  · intro b e h
    simp [MeanBuilder.compute, h, Except.toOption]

/-- C6 witness: `errors_typed_at_engine_builder_unwraps` at a concrete
mismatched construction and a concrete panicking builder call. -/
theorem errors_typed_at_engine_builder_unwraps_witness :
    Array.new ([1, 2] : List Int) ⟨⟨[3]⟩⟩
      = Except.error (ArrayError.dimensionMismatch 3 2)
    ∧ (MaxBuilder.mk (Array.mk ([] : List Int) ⟨⟨[0]⟩⟩) none).compute = none :=
  ⟨(errors_typed_at_engine_builder_unwraps (fun x : Int => (x : ℚ))).1 [1, 2] _ (by decide),
   (errors_typed_at_engine_builder_unwraps (fun x : Int => (x : ℚ))).2.2.2.2.1 _
      ArrayError.emptyArray rfl⟩

/-- C9: for every non-empty 1-D array, reducing along axis `Some(0)`
and reducing with axis `None` yield the same single-element result, for
max, min and mean alike. -/
theorem rank1_axis0_degeneracy {α : Type} [LinearOrder α] [Inhabited α] (f : α → ℚ)
    (a : Array α) (hne : a.data ≠ []) (h1 : a.shape.rawDim.ndim = 1) :
    a.maxCompute (some 0) = a.maxCompute none
    ∧ a.minCompute (some 0) = a.minCompute none
    ∧ a.meanCompute f (some 0) = a.meanCompute f none
    ∧ (∃ v, a.maxCompute none = Except.ok [v])
    ∧ (∃ v, a.minCompute none = Except.ok [v])
    ∧ (∃ v, a.meanCompute f none = Except.ok [v]) := by
  have hax0 : ∀ k, (some 0 : Option Nat) = some k → k < a.shape.rawDim.ndim := by
    intro k h
    injection h with h
    subst h
    rw [h1]
    omega
  have haxn : ∀ k, (none : Option Nat) = some k → k < a.shape.rawDim.ndim :=
    fun k h => nomatch h
  obtain ⟨n, hd⟩ := List.length_eq_one.mp h1
  refine ⟨?_, ?_, ?_, ?_, ?_, ?_⟩
  · rw [maxCompute_eq_body a _ hne hax0, maxCompute_eq_body a _ hne haxn, hd]
    rfl
  · rw [minCompute_eq_body a _ hne hax0, minCompute_eq_body a _ hne haxn, hd]
    rfl
  · rw [meanCompute_eq_body f a _ hne hax0, meanCompute_eq_body f a _ hne haxn, hd]
    rfl
  · refine ⟨maxVal a.data, ?_⟩
    rw [maxCompute_eq_body a none hne haxn, hd]
    show (okOrEmpty a.data.max?).map _ = _
    rw [okOrEmpty_max? hne]
    rfl
  · refine ⟨minVal a.data, ?_⟩
    rw [minCompute_eq_body a none hne haxn, hd]
    show (okOrEmpty a.data.min?).map _ = _
    rw [okOrEmpty_min? hne]
    rfl
  · refine ⟨meanVal f a.data, ?_⟩
    rw [meanCompute_eq_body f a none hne haxn, hd]
    rfl

/-- C9 witness: `rank1_axis0_degeneracy` at a concrete non-empty 1-D
integer array. -/
theorem rank1_axis0_degeneracy_witness :
    (Array.mk ([3, 4] : List Int) ⟨⟨[2]⟩⟩).maxCompute (some 0)
      = (Array.mk ([3, 4] : List Int) ⟨⟨[2]⟩⟩).maxCompute none :=
  (rank1_axis0_degeneracy (fun x : Int => (x : ℚ))
    (Array.mk ([3, 4] : List Int) ⟨⟨[2]⟩⟩) (by decide) rfl).1

/-- C3: for every array with a non-empty buffer, rank 1, 2 or 3, and
any requested axis below the rank, all three reductions succeed (the
element comparison is a total order); in particular no internal
empty-group error, comparison failure, or `unreachable!()` arm can be
reached, since every error or panic would surface as a non-`ok`
result. -/
theorem reductions_always_succeed {α : Type} [LinearOrder α] [Inhabited α] (f : α → ℚ)
    (a : Array α) (ax : Option Nat) (hne : a.data ≠ [])
    (hlen : a.data.length = a.shape.size)
    (hrank : a.shape.rawDim.ndim = 1 ∨ a.shape.rawDim.ndim = 2 ∨ a.shape.rawDim.ndim = 3)
    (hax : ∀ k, ax = some k → k < a.shape.rawDim.ndim) :
    (∃ v, a.maxCompute ax = Except.ok v)
    ∧ (∃ v, a.minCompute ax = Except.ok v)
    ∧ (∃ v, a.meanCompute f ax = Except.ok v) :=
  ⟨⟨_, maxCompute_eq_table a ax hne hlen hrank hax⟩,
   ⟨_, minCompute_eq_table a ax hne hlen hrank hax⟩,
   ⟨_, meanCompute_eq_table f a ax hne hlen hrank hax⟩⟩

/-- C3 witness: `reductions_always_succeed` at a concrete 2×2 integer
array reduced along axis 1. -/
theorem reductions_always_succeed_witness :
    ∃ v, (Array.mk ([1, 2, 3, 4] : List Int) ⟨⟨[2, 2]⟩⟩).maxCompute (some 1)
      = Except.ok v :=
  (reductions_always_succeed (fun x : Int => (x : ℚ))
    (Array.mk ([1, 2, 3, 4] : List Int) ⟨⟨[2, 2]⟩⟩) (some 1) (by decide) (by decide)
    (Or.inr (Or.inl rfl)) (by intro k h; injection h with h; subst h; decide)).1

/-- C4: for every non-empty array of rank 1, 2 or 3 and permitted axis,
each entry of `mean_compute` equals the sum of its group's elements,
each converted to the 64-bit floating-point accumulator (modelled
exactly by `f : α → ℚ`), divided by the group's element count — an
exact division in the promoted type, never truncated back to an
integer type. -/
theorem mean_is_group_average {α : Type} [Inhabited α] (f : α → ℚ) (a : Array α)
    (ax : Option Nat) (hne : a.data ≠ []) (hlen : a.data.length = a.shape.size)
    (hrank : a.shape.rawDim.ndim = 1 ∨ a.shape.rawDim.ndim = 2 ∨ a.shape.rawDim.ndim = 3)
    (hax : ∀ k, ax = some k → k < a.shape.rawDim.ndim) :
    a.meanCompute f ax
      = Except.ok ((tableGroups a.data a.shape.rawDim.dims ax).map fun g =>
          (g.map f).sum / (g.length : ℚ)) :=
  meanCompute_eq_table f a ax hne hlen hrank hax

/-- C4 witness: `mean_is_group_average` on the integer array `[1, 2]`,
whose whole-array mean is the fractional value `3/2` — not an integer
truncation. -/
theorem mean_is_group_average_witness :
    (Array.mk ([1, 2] : List Int) ⟨⟨[2]⟩⟩).meanCompute (fun x : Int => (x : ℚ)) none
      = Except.ok ((tableGroups [1, 2] [2] none).map fun g =>
          (g.map fun x : Int => (x : ℚ)).sum / (g.length : ℚ))
    ∧ (Array.mk ([1, 2] : List Int) ⟨⟨[2]⟩⟩).meanCompute (fun x : Int => (x : ℚ)) none
      = Except.ok [(3 : ℚ) / 2] :=
  ⟨mean_is_group_average (fun x : Int => (x : ℚ)) (Array.mk ([1, 2] : List Int) ⟨⟨[2]⟩⟩) none
      (by decide) (by decide) (Or.inl rfl) (fun k h => nomatch h),
   by simp [Array.meanCompute, meanAxisBody, Shape.rawDim]; norm_num⟩

/-- C1: for every non-empty array of rank 2 or 3 and every in-range
axis (or no axis), `max_compute` and `min_compute` return exactly the
aggregates of the §4.3 table's groups, in the table's order; the group
lists have exactly the table's lengths (cols / rows / rows*cols /
depth*cols / depth*rows / 1); and on the Scenario C input of shape
`[2,2,3]`, max with axis 2 returns `[303, 606, -707, 333]` and max
with no axis returns `[606]`. -/
theorem max_min_match_table :
    (∀ (α : Type) [LinearOrder α] [Inhabited α] (a : Array α) (ax : Option Nat),
        a.data ≠ [] → a.data.length = a.shape.size →
        (a.shape.rawDim.ndim = 2 ∨ a.shape.rawDim.ndim = 3) →
        (∀ k, ax = some k → k < a.shape.rawDim.ndim) →
        a.maxCompute ax = Except.ok ((tableGroups a.data a.shape.rawDim.dims ax).map maxVal)
        ∧ a.minCompute ax
            = Except.ok ((tableGroups a.data a.shape.rawDim.dims ax).map minVal))
    ∧ (∀ (α : Type) [Inhabited α] (data : List α) (rows cols depth : Nat),
        (tableGroups data [rows, cols] (some 0)).length = cols
        ∧ (tableGroups data [rows, cols] (some 1)).length = rows
        ∧ (tableGroups data [depth, rows, cols] (some 0)).length = rows * cols
        ∧ (tableGroups data [depth, rows, cols] (some 1)).length = depth * cols
        ∧ (tableGroups data [depth, rows, cols] (some 2)).length = depth * rows
        ∧ (tableGroups data [rows, cols] none).length = 1
        ∧ (tableGroups data [depth, rows, cols] none).length = 1)
    ∧ (Array.mk ([101, 202, 303, 404, 505, 606, -707, -808, -909, 111, 222, 333] : List Int)
          ⟨⟨[2, 2, 3]⟩⟩).maxCompute (some 2) = Except.ok [303, 606, -707, 333]
    ∧ (Array.mk ([101, 202, 303, 404, 505, 606, -707, -808, -909, 111, 222, 333] : List Int)
          ⟨⟨[2, 2, 3]⟩⟩).maxCompute none = Except.ok [606] := by
  refine ⟨?_, ?_, rfl, rfl⟩
  · intro α _ _ a ax hne hlen hrank hax
    have hrank' : a.shape.rawDim.ndim = 1 ∨ a.shape.rawDim.ndim = 2 ∨ a.shape.rawDim.ndim = 3 :=
      hrank.elim (fun h => Or.inr (Or.inl h)) fun h => Or.inr (Or.inr h)
    exact ⟨maxCompute_eq_table a ax hne hlen hrank' hax,
      minCompute_eq_table a ax hne hlen hrank' hax⟩
  · intro α _ data rows cols depth
    refine ⟨?_, ?_, ?_, ?_, ?_, rfl, rfl⟩
    · simp [tableGroups]
    · simp [tableGroups]
    · simp [tableGroups, List.length_flatMap, Function.comp_def]
    · simp [tableGroups, List.length_flatMap, Function.comp_def]
    · simp [tableGroups, List.length_flatMap, Function.comp_def]

/-- C1 witness: `max_min_match_table` at a concrete 2×2 integer array
reduced along axis 0. -/
theorem max_min_match_table_witness :
    (Array.mk ([1, 2, 3, 4] : List Int) ⟨⟨[2, 2]⟩⟩).maxCompute (some 0)
        = Except.ok ((tableGroups [1, 2, 3, 4] [2, 2] (some 0)).map maxVal)
    ∧ (Array.mk ([1, 2, 3, 4] : List Int) ⟨⟨[2, 2]⟩⟩).minCompute (some 0)
        = Except.ok ((tableGroups [1, 2, 3, 4] [2, 2] (some 0)).map minVal) :=
  max_min_match_table.1 Int (Array.mk [1, 2, 3, 4] ⟨⟨[2, 2]⟩⟩) (some 0) (by decide)
    (by decide) (Or.inl rfl) (by intro k h; injection h with h; subst h; decide)

end Numru
